import Mathlib

/-!
Shallow embedding of the `RandomSwaps` and `RandomInsertion` text-augmentation
layers (src/keras_nlp/layers/random_swaps.py, random_insertion.py).

Tokens are an arbitrary type with decidable equality.  Ragged batches are
lists of lists.  TensorFlow randomness is modelled by draw oracles: a uniform
draw over the half-open range 0..n is an arbitrary oracle value reduced mod n,
so universal quantification over the oracle covers exactly the reachable draw
outcomes.  The stateful generator of `RandomInsertion` is a counter: each
`make_seeds` call hands out the current counter value and advances it.
Failing TensorFlow ops (out-of-range slicing and gathering, ragged-tensor
validation in `from_row_splits`, uniform draws over an empty range) are
modelled by `Option`/`Except` results.
-/

/-- The dtypes relevant to the dtype check at the head of both constructors. -/
inductive DType where
  | int32
  | int64
  | string
  | float32
  deriving DecidableEq

def DType.is_integer : DType → Bool
  | .int32 => true
  | .int64 => true
  | _ => false

/-- A rank-1 or rank-2 input/output, mirroring the two accepted tensor ranks. -/
inductive Ragged (α : Type) where
  | r1 (seq : List α)
  | r2 (rows : List (List α))
  deriving DecidableEq

def Ragged.rank {α : Type} : Ragged α → Nat
  | .r1 _ => 1
  | .r2 _ => 2

/-- Python truthiness of an optional list: `if self.skip_list:` is taken
only for a present, non-empty list. -/
def truthyList {α : Type} : Option (List α) → Bool
  | some (_ :: _) => true
  | _ => false

/-- `[a, b, c].count(None)` over three optional arguments of different types. -/
def noneCount3 {α β γ : Type} (a : Option α) (b : Option β) (c : Option γ) : Nat :=
  (if a.isNone then 1 else 0) + (if b.isNone then 1 else 0) + (if c.isNone then 1 else 0)

/-- `self.max_insertions is not None and self.max_insertions < 0`. -/
def optNeg : Option Int → Bool
  | some m => decide (m < 0)
  | none => false

/-- The dtype check shared by both constructors: absent or `None` defaults to
int32; a present dtype must be an integer type or string. -/
def checkDType : Option DType → Except String DType
  | none => .ok .int32
  | some d =>
      if !d.is_integer && d ≠ .string then
        .error "Output dtype must be an integer type or a string."
      else
        .ok d

/-- Validated configuration of a `RandomSwaps` instance. -/
structure SwapsConfig (α : Type) where
  swaps : Int
  seed : Int
  skip_list : Option (List α)
  skip_fn : Option (α → Bool)
  py_skip_fn : Option (α → Bool)
  dtype : DType

/-- `RandomSwaps.__init__`: dtype check, seed resolution (`freshSeed` stands
for the `random.randint` fallback draw), the non-negative swaps check, then
the at-most-one-skip-mechanism check, in source order. -/
def randomSwapsInit {α : Type} (swaps : Int) (skip_list : Option (List α))
    (skip_fn : Option (α → Bool)) (py_skip_fn : Option (α → Bool))
    (seed : Option Int) (dtype : Option DType) (freshSeed : Int) :
    Except String (SwapsConfig α) :=
  match checkDType dtype with
  | .error e => .error e
  | .ok dt =>
      let seedv := match seed with
        | none => freshSeed
        | some s => s
      if swaps < 0 then
        .error "Swaps must be non negative"
      else if noneCount3 skip_list skip_fn py_skip_fn < 2 then
        .error "Exactly one of skip_list, skip_fn, py_skip_fn must be provided."
      else
        .ok { swaps := swaps, seed := seedv, skip_list := skip_list,
              skip_fn := skip_fn, py_skip_fn := py_skip_fn, dtype := dt }

/-- Validated configuration of a `RandomInsertion` instance. -/
structure InsertionConfig (α : Type) where
  rate : ℚ
  max_insertions : Option Int
  insertion_list : Option (List α)
  insertion_fn : Option (α → α)
  insertion_py_fn : Option (α → α)
  skip_list : Option (List α)
  skip_fn : Option (α → Bool)
  skip_py_fn : Option (α → Bool)
  seed : Int
  dtype : DType

/-- `RandomInsertion.__init__`: dtype check, seed resolution, then the
negative-cap, rate-range, skip-count and insertion-count checks in source
order. -/
def randomInsertionInit {α : Type} (rate : ℚ) (max_insertions : Option Int)
    (insertion_list : Option (List α)) (insertion_fn : Option (α → α))
    (insertion_py_fn : Option (α → α)) (skip_list : Option (List α))
    (skip_fn : Option (α → Bool)) (skip_py_fn : Option (α → Bool))
    (seed : Option Int) (dtype : Option DType) (freshSeed : Int) :
    Except String (InsertionConfig α) :=
  match checkDType dtype with
  | .error e => .error e
  | .ok dt =>
      let seedv := match seed with
        | none => freshSeed
        | some s => s
      if optNeg max_insertions then
        .error "Insertions must be non negative"
      else if rate > 1 ∨ rate < 0 then
        .error "Rate must be between 0 and 1 (both inclusive)."
      else if noneCount3 skip_list skip_fn skip_py_fn < 2 then
        .error "Exactly one of skip_list, skip_fn, skip_py_fn must be provided."
      else if noneCount3 insertion_list insertion_fn insertion_py_fn ≠ 2 then
        .error "Exactly one of insertion_list, insertion_fn, insertion_py_fn must be provided."
      else
        .ok { rate := rate, max_insertions := max_insertions,
              insertion_list := insertion_list, insertion_fn := insertion_fn,
              insertion_py_fn := insertion_py_fn, skip_list := skip_list,
              skip_fn := skip_fn, skip_py_fn := skip_py_fn,
              seed := seedv, dtype := dt }

/-! ## RandomSwaps.call -/

/-- Cut a flat list of values into rows of the given lengths, mirroring how a
ragged tensor pairs flat values with row splits. -/
def splitByLens {β : Type} : List Nat → List β → List (List β)
  | [], _ => []
  | n :: ns, xs => xs.take n :: splitByLens ns (xs.drop n)

/-- `skip_masks` over the flat values: the `skip_list` branch is taken only
for a truthy (non-empty) list and is a hash-table membership test; otherwise
`skip_fn`, then `py_skip_fn`, else no mask at all. -/
def swapsSkipMasks {α : Type} [DecidableEq α] (cfg : SwapsConfig α)
    (flat : List α) : Option (List Bool) :=
  if truthyList cfg.skip_list then
    some (flat.map (fun t => (cfg.skip_list.getD []).contains t))
  else
    match cfg.skip_fn with
    | some f => some (flat.map f)
    | none =>
        match cfg.py_skip_fn with
        | some f => some (flat.map f)
        | none => none

/-- `boolean_mask` of one positions row against the skip flags of its tokens:
keep a position exactly when its token is not skip-protected. -/
def maskRow (ps : List Nat) (ms : List Bool) : List Nat :=
  (ps.zip ms).filterMap (fun pm => if pm.2 then none else some pm.1)

/-- One unrolled iteration of the `_swap` loop: draw a vector over the row
(two components used), read both slots of the current positions row, and
scatter the two reads back at the swapped slots. -/
def doSwap (d : Nat × Nat) (ps : List Nat) : List Nat :=
  let i1 := d.1 % ps.length
  let i2 := d.2 % ps.length
  (ps.set i1 (ps.getD i2 0)).set i2 (ps.getD i1 0)

/-- The `swaps` loop body of `_swap`.  Each iteration slices components 0 and
1 out of a draw vector shaped like the row, so a row shorter than 2 makes the
slice (and the empty-range uniform draw) fail. -/
def swapIters (R : Nat → Nat × Nat) : Nat → List Nat → Option (List Nat)
  | 0, ps => some ps
  | k + 1, ps =>
      if ps.length < 2 then none
      else swapIters (fun t => R (t + 1)) k (doSwap (R 0) ps)

/-- `_swap` on one positions row: the early return fires only for a row of
size exactly 1, then the loop runs `swaps` times. -/
def swapRow (R : Nat → Nat × Nat) (swaps : Nat) (ps : List Nat) : Option (List Nat) :=
  if ps.length = 1 then some ps else swapIters R swaps ps

/-- `tf.map_fn(_swap, positions)`: each row gets its own draw stream. -/
def swapAllRows (R : Nat → Nat → Nat × Nat) (swaps : Nat) :
    Nat → List (List Nat) → Option (List (List Nat))
  | _, [] => some []
  | i, ps :: rest =>
      match swapRow (R i) swaps ps with
      | none => none
      | some p =>
          match swapAllRows R swaps (i + 1) rest with
          | none => none
          | some r => some (p :: r)

/-- `tf.gather` over the flat values; an out-of-range index is an error. -/
def gatherOpt {α : Type} (flat : List α) : List Nat → Option (List α)
  | [] => some []
  | i :: is =>
      match flat.get? i with
      | none => none
      | some v =>
          match gatherOpt flat is with
          | none => none
          | some vs => some (v :: vs)

/-- `RandomSwaps.call` on the rank-2 normalized batch: build flat positions,
mask them by the skip flags, swap every row, gather the tokens named by the
shuffled positions, and rebuild a ragged batch against the original row
splits.  `from_row_splits` validates that the value count matches the final
row split, so a count mismatch is an error. -/
def swapsCallRows {α : Type} [DecidableEq α] (cfg : SwapsConfig α)
    (R : Nat → Nat → Nat × Nat) (rows : List (List α)) : Option (List (List α)) :=
  let flat := rows.flatten
  let lens := rows.map List.length
  let positions0 := splitByLens lens (List.range flat.length)
  let positions :=
    match swapsSkipMasks cfg flat with
    | none => positions0
    | some ms => List.zipWith maskRow positions0 (splitByLens lens ms)
  match swapAllRows R cfg.swaps.toNat 0 positions with
  | none => none
  | some shuffled =>
      match gatherOpt flat shuffled.flatten with
      | none => none
      | some gathered =>
          if gathered.length = lens.sum then some (splitByLens lens gathered)
          else none

/-- `RandomSwaps.call`: a rank-1 input is expanded to a one-row batch; on the
way out the squeeze is assigned to the dead variable `inputs` while the
rank-2 `swapped` tensor is what the function returns. -/
def swapsCall {α : Type} [DecidableEq α] (cfg : SwapsConfig α)
    (R : Nat → Nat → Nat × Nat) : Ragged α → Option (Ragged α)
  | .r1 seq => (swapsCallRows cfg R [seq]).map Ragged.r2
  | .r2 rows => (swapsCallRows cfg R rows).map Ragged.r2

/-- `RandomSwaps.get_config` updates the base mapping with only the swap
count and the seed. -/
structure SwapsConfigDict where
  swaps : Int
  seed : Int
  deriving DecidableEq

def swapsGetConfig {α : Type} (cfg : SwapsConfig α) : SwapsConfigDict :=
  { swaps := cfg.swaps, seed := cfg.seed }

/-- `from_config` feeds the exported mapping back into the constructor; the
skip arguments are absent from the mapping, so they take their defaults. -/
def swapsFromConfig {α : Type} (d : SwapsConfigDict) (freshSeed : Int) :
    Except String (SwapsConfig α) :=
  randomSwapsInit d.swaps none none none (some d.seed) none freshSeed

/-! ## RandomInsertion.call -/

/-- `_check_skip`: hash-table lookup for a truthy skip list, else `skip_fn`,
else the wrapped `skip_py_fn`, else `False`. -/
def checkSkip {α : Type} [DecidableEq α] (cfg : InsertionConfig α) (tok : α) : Bool :=
  if truthyList cfg.skip_list then (cfg.skip_list.getD []).contains tok
  else
    match cfg.skip_fn with
    | some f => f tok
    | none =>
        match cfg.skip_py_fn with
        | some f => f tok
        | none => false

/-- Splice the synonym immediately after the insertion location. -/
def splice {α : Type} (xs : List α) (loc : Nat) (syn : α) : List α :=
  xs.take (loc + 1) ++ syn :: xs.drop (loc + 1)

/-- The iteration count of one row: `min(Binomial(L, rate), max_insertions)`.
The binomial draw is the oracle value reduced into the support `0..L`. -/
def clampNum {α : Type} (cfg : InsertionConfig α) (raw : Nat) : Nat :=
  match cfg.max_insertions with
  | some m => min raw m.toNat
  | none => raw

/-- The `num_to_select` vector: one generator seed `s` feeds a batched
binomial draw, component `i` belonging to row `i`. -/
def numToSelect {α : Type} (cfg : InsertionConfig α) (Bin : Nat → Nat → Nat)
    (s : Nat) : Nat → List Nat → List Nat
  | _, [] => []
  | i, L :: Ls => clampNum cfg (Bin s i % (L + 1)) :: numToSelect cfg Bin s (i + 1) Ls

/-- The `_insert` loop on one row.  Each iteration consumes one generator
seed `g` for the index vector (components 0 and 1 are sliced out, which
fails on a row shorter than 2), reads the prompt token, abandons the
iteration if the prompt is skip-protected, otherwise resolves the synonym —
the `insertion_list` branch consumes a second seed — and splices it in
after the location index. -/
def insertRow {α : Type} [DecidableEq α] (cfg : InsertionConfig α)
    (U : Nat → Nat → Nat) : Nat → Nat → List α → Option (List α × Nat)
  | 0, g, xs => some (xs, g)
  | num + 1, g, xs =>
      if xs.length < 2 then none
      else
        match xs.get? (U g 0 % xs.length) with
        | none => none
        | some w =>
            if checkSkip cfg w then insertRow cfg U num (g + 1) xs
            else
              let loc := U g 1 % xs.length
              match cfg.insertion_fn with
              | some f => insertRow cfg U num (g + 1) (splice xs loc (f w))
              | none =>
                  match cfg.insertion_list with
                  | some l =>
                      match l.get? (U (g + 1) 0 % l.length) with
                      | none => none
                      | some syn => insertRow cfg U num (g + 2) (splice xs loc syn)
                  | none =>
                      match cfg.insertion_py_fn with
                      | some f => insertRow cfg U num (g + 1) (splice xs loc (f w))
                      | none => none

/-- `tf.map_fn(_insert, (inputs, num_to_select))` with the generator counter
threaded through the rows in batch order. -/
def insertRowsLoop {α : Type} [DecidableEq α] (cfg : InsertionConfig α)
    (U : Nat → Nat → Nat) : Nat → List (List α × Nat) → Option (List (List α) × Nat)
  | g, [] => some ([], g)
  | g, (r, k) :: rest =>
      match insertRow cfg U k g r with
      | none => none
      | some (r2, g2) =>
          match insertRowsLoop cfg U g2 rest with
          | none => none
          | some (rs, g3) => some (r2 :: rs, g3)

/-- `RandomInsertion.call` on the rank-2 normalized batch with generator
counter `g`: one seed for the batched binomial, then the per-row insertion
loops.  Returns the output rows and the advanced counter. -/
def insertionCallRows {α : Type} [DecidableEq α] (cfg : InsertionConfig α)
    (U : Nat → Nat → Nat) (Bin : Nat → Nat → Nat) (g : Nat)
    (rows : List (List α)) : Option (List (List α) × Nat) :=
  let lens := rows.map List.length
  let nums := numToSelect cfg Bin g 0 lens
  insertRowsLoop cfg U (g + 1) (rows.zip nums)

/-- `RandomInsertion.call`: a rank-1 input is expanded to a one-row batch and
the result squeezed back to rank 1 before being returned. -/
def insertionCall {α : Type} [DecidableEq α] (cfg : InsertionConfig α)
    (U : Nat → Nat → Nat) (Bin : Nat → Nat → Nat) (g : Nat) :
    Ragged α → Option (Ragged α)
  | .r1 seq =>
      match insertionCallRows cfg U Bin g [seq] with
      | some ([r], _) => some (.r1 r)
      | _ => none
  | .r2 rows => (insertionCallRows cfg U Bin g rows).map (fun p => .r2 p.1)

/-- The individual call pattern: one call per sequence in batch order on the
same instance, so the generator counter advances across the calls. -/
def insertionIndividual {α : Type} [DecidableEq α] (cfg : InsertionConfig α)
    (U : Nat → Nat → Nat) (Bin : Nat → Nat → Nat) :
    Nat → List (List α) → Option (List (List α) × Nat)
  | g, [] => some ([], g)
  | g, r :: rest =>
      match insertionCallRows cfg U Bin g [r] with
      | some ([r2], g2) =>
          match insertionIndividual cfg U Bin g2 rest with
          | none => none
          | some (rs, g3) => some (r2 :: rs, g3)
      | _ => none

/-- `RandomInsertion.get_config` updates the base mapping with every
constructor parameter. -/
structure InsertionConfigDict (α : Type) where
  rate : ℚ
  max_insertions : Option Int
  insertion_list : Option (List α)
  insertion_fn : Option (α → α)
  insertion_py_fn : Option (α → α)
  skip_list : Option (List α)
  skip_fn : Option (α → Bool)
  skip_py_fn : Option (α → Bool)
  seed : Int

def insertionGetConfig {α : Type} (cfg : InsertionConfig α) : InsertionConfigDict α :=
  { rate := cfg.rate, max_insertions := cfg.max_insertions,
    insertion_list := cfg.insertion_list, insertion_fn := cfg.insertion_fn,
    insertion_py_fn := cfg.insertion_py_fn, skip_list := cfg.skip_list,
    skip_fn := cfg.skip_fn, skip_py_fn := cfg.skip_py_fn, seed := cfg.seed }

/-- `from_config` feeds the exported mapping back into the constructor. -/
def insertionFromConfig {α : Type} (d : InsertionConfigDict α) (freshSeed : Int) :
    Except String (InsertionConfig α) :=
  randomInsertionInit d.rate d.max_insertions d.insertion_list d.insertion_fn
    d.insertion_py_fn d.skip_list d.skip_fn d.skip_py_fn (some d.seed) none freshSeed

/-- All draws of a freshly constructed `RandomSwaps` instance derive from its
stored seed; `mkR` is the fixed seed-to-draw-stream map of the runtime. -/
def swapsCallSeeded {α : Type} [DecidableEq α] (mkR : Int → Nat → Nat → Nat × Nat)
    (cfg : SwapsConfig α) (x : Ragged α) : Option (Ragged α) :=
  swapsCall cfg (mkR cfg.seed) x

/-- All draws of a freshly constructed `RandomInsertion` instance derive from
its stored seed, with the generator counter starting at 0. -/
def insertionCallSeeded {α : Type} [DecidableEq α]
    (mkU : Int → Nat → Nat → Nat) (mkB : Int → Nat → Nat → Nat)
    (cfg : InsertionConfig α) (x : Ragged α) : Option (Ragged α) :=
  insertionCall cfg (mkU cfg.seed) (mkB cfg.seed) 0 x

/-! ## Concrete instances used by the claim theorems -/

/-- A trivial draw oracle for the swap transform. -/
def RZ : Nat → Nat → Nat × Nat := fun _ _ => (0, 0)

/-- A trivial component oracle for the insertion transform. -/
def UZ : Nat → Nat → Nat := fun _ _ => 0

/-- A `RandomSwaps` instance with one swap and the skip list containing
token 1, as produced by the constructor. -/
def cfgSwapSkip : SwapsConfig Nat :=
  { swaps := 1, seed := 42, skip_list := some [1], skip_fn := none,
    py_skip_fn := none, dtype := .int32 }

/-- A `RandomSwaps` instance with zero swaps and no skip mechanism. -/
def cfgSwapPlain0 : SwapsConfig Nat :=
  { swaps := 0, seed := 42, skip_list := none, skip_fn := none,
    py_skip_fn := none, dtype := .int32 }

/-- A `RandomSwaps` instance with one swap and no skip mechanism. -/
def cfgSwapPlain1 : SwapsConfig Nat :=
  { swaps := 1, seed := 42, skip_list := none, skip_fn := none,
    py_skip_fn := none, dtype := .int32 }

/-- A `RandomInsertion` instance drawing insertions from the list `[9]`,
with no cap and no skip mechanism. -/
def cfgInsList : InsertionConfig Nat :=
  { rate := 1, max_insertions := none, insertion_list := some [9],
    insertion_fn := none, insertion_py_fn := none, skip_list := none,
    skip_fn := none, skip_py_fn := none, seed := 42, dtype := .int32 }

/-! ## Helper lemmas -/

theorem splice_length {α : Type} (xs : List α) (loc : Nat) (syn : α) :
    (splice xs loc syn).length = xs.length + 1 := by
  simp only [splice, List.length_append, List.length_take, List.length_cons,
    List.length_drop]
  omega

theorem flatten_splitByLens {β : Type} :
    ∀ (lens : List Nat) (xs : List β), lens.sum = xs.length →
      (splitByLens lens xs).flatten = xs := by
  intro lens
  induction lens with
  | nil =>
      intro xs h
      simp only [List.sum_nil] at h
      simp [splitByLens, (List.eq_nil_of_length_eq_zero h.symm)]
  | cons n ns ih =>
      intro xs h
      simp only [List.sum_cons] at h
      have hle : n ≤ xs.length := by omega
      have hdrop : ns.sum = (xs.drop n).length := by
        simp only [List.length_drop]; omega
      simp only [splitByLens, List.flatten_cons, ih (xs.drop n) hdrop,
        List.take_append_drop]

theorem splitByLens_flatten {β : Type} :
    ∀ (rows : List (List β)),
      splitByLens (rows.map List.length) rows.flatten = rows := by
  intro rows
  induction rows with
  | nil => simp [splitByLens]
  | cons r rs ih =>
      simp only [List.map_cons, List.flatten_cons, splitByLens,
        List.take_left, List.drop_left, ih]

theorem gatherOpt_range' {β : Type} (flat : List β) :
    ∀ (n off : Nat), off + n ≤ flat.length →
      gatherOpt flat (List.range' off n) = some ((flat.drop off).take n) := by
  intro n
  induction n with
  | zero => intro off _; simp [gatherOpt]
  | succ m ih =>
      intro off h
      have hoff : off < flat.length := by omega
      rw [List.range'_succ]
      simp only [gatherOpt, List.get?_eq_getElem?, List.getElem?_eq_getElem hoff]
      rw [ih (off + 1) (by omega)]
      rw [List.drop_eq_getElem_cons hoff, List.take_succ_cons]

theorem gatherOpt_range {β : Type} (flat : List β) :
    gatherOpt flat (List.range flat.length) = some flat := by
  rw [List.range_eq_range', gatherOpt_range' flat flat.length 0 (by omega)]
  simp

theorem swapRow_zero (R : Nat → Nat × Nat) (ps : List Nat) :
    swapRow R 0 ps = some ps := by
  unfold swapRow swapIters
  split <;> rfl

theorem swapAllRows_zero (R : Nat → Nat → Nat × Nat) :
    ∀ (i : Nat) (pss : List (List Nat)), swapAllRows R 0 i pss = some pss := by
  intro i pss
  induction pss generalizing i with
  | nil => rfl
  | cons p ps ih => simp [swapAllRows, swapRow_zero, ih]

/-! ## Claim theorems -/

/-- C1: evaluation at the failing input.  A batch holding the single
sequence `[1, 2]` under a `RandomSwaps` instance whose skip list protects
token 1 does not return a batch at all: the skip-protected token is dropped
from the shuffled positions, so the final `from_row_splits` reconstruction
fails its value-count validation instead of keeping token 1 at index 0 with
the multiset preserved. -/
theorem c1_swap_skip_loses_protected_tokens :
    randomSwapsInit 1 (some [1]) none none (some 42) none 7 = .ok cfgSwapSkip ∧
      swapsCall cfgSwapSkip RZ (.r2 [[1, 2]]) = none :=
  ⟨rfl, rfl⟩

/-- C2: evaluation at the failing input.  `RandomSwaps.call` assigns the
rank-1 squeeze to the dead variable `inputs` and returns the rank-2
`swapped` tensor, so a rank-1 input comes back as a one-row rank-2 batch;
`RandomInsertion.call` squeezes correctly and preserves rank 1. -/
theorem c2_swap_rank1_returns_rank2 :
    swapsCall cfgSwapPlain0 RZ (.r1 [1, 2]) = some (.r2 [[1, 2]]) ∧
      (swapsCall cfgSwapPlain0 RZ (.r1 [1, 2])).map Ragged.rank = some 2 ∧
      insertionCall cfgInsList UZ (fun _ _ => 0) 0 (.r1 [1, 2]) = some (.r1 [1, 2]) :=
  ⟨rfl, rfl, rfl⟩

/-- With no skip mechanism and zero swaps, the whole call reconstructs the
input batch unchanged. -/
theorem swapsCallRows_id {α : Type} [DecidableEq α] (cfg : SwapsConfig α)
    (R : Nat → Nat → Nat × Nat) (rows : List (List α))
    (h1 : cfg.skip_list = none) (h2 : cfg.skip_fn = none)
    (h3 : cfg.py_skip_fn = none) (h4 : cfg.swaps = 0) :
    swapsCallRows cfg R rows = some rows := by
  have hm : swapsSkipMasks cfg rows.flatten = none := by
    simp [swapsSkipMasks, h1, h2, h3, truthyList]
  have hsum : (rows.map List.length).sum = rows.flatten.length := by
    simp
  have hflat : (splitByLens (rows.map List.length)
      (List.range rows.flatten.length)).flatten = List.range rows.flatten.length :=
    flatten_splitByLens _ _ (by rw [List.length_range]; exact hsum)
  simp only [swapsCallRows, hm, h4, Int.toNat_zero, swapAllRows_zero, hflat,
    gatherOpt_range, hsum, splitByLens_flatten, if_true]

/-- C7 counterexample: a sequence with an empty eligible-index set is not
returned unchanged.  With one swap and no skip mechanism, the empty sequence
makes `_swap` slice component 0 out of an empty draw vector, so the call
fails instead of being a no-op. -/
theorem c7_counterexample_empty_row_fails :
    swapsCall cfgSwapPlain1 RZ (.r2 [[]]) = none :=
  rfl

/-- C7 amended: a positions row with exactly one eligible element is left
unchanged by `_swap` with no out-of-range access, whatever the draws and the
swap count; and with `swaps = 0` and no skip mechanism the whole call
returns every sequence unchanged.  (A row with zero eligible elements and a
positive swap count instead fails on an out-of-range slice of the empty
draw vector.) -/
theorem c7_single_eligible_and_zero_swaps_identity :
    (∀ (R : Nat → Nat × Nat) (swaps : Nat) (ps : List Nat), ps.length = 1 →
        swapRow R swaps ps = some ps) ∧
    (∀ {α : Type} [DecidableEq α] (cfg : SwapsConfig α)
        (R : Nat → Nat → Nat × Nat) (rows : List (List α)),
        cfg.skip_list = none → cfg.skip_fn = none → cfg.py_skip_fn = none →
        cfg.swaps = 0 → swapsCallRows cfg R rows = some rows) := by
  constructor
  · intro R swaps ps h
    unfold swapRow
    rw [if_pos h]
  · intro α _ cfg R rows h1 h2 h3 h4
    exact swapsCallRows_id cfg R rows h1 h2 h3 h4

/-- C7 witness: the amended theorem applied at a one-element row with five
swaps and at a two-row batch under a swap-free, skip-free instance. -/
theorem c7_witness :
    swapRow (fun _ => (0, 0)) 5 [3] = some [3] ∧
      swapsCallRows cfgSwapPlain0 RZ [[1, 2], [3]] = some [[1, 2], [3]] :=
  ⟨c7_single_eligible_and_zero_swaps_identity.1 _ 5 [3] rfl,
    c7_single_eligible_and_zero_swaps_identity.2 cfgSwapPlain0 RZ [[1, 2], [3]]
      rfl rfl rfl rfl⟩

/-- A `RandomInsertion` instance like `cfgInsList` but whose skip list
protects token 1. -/
def cfgInsSkip : InsertionConfig Nat :=
  { rate := 1, max_insertions := none, insertion_list := some [9],
    insertion_fn := none, insertion_py_fn := none, skip_list := some [1],
    skip_fn := none, skip_py_fn := none, seed := 42, dtype := .int32 }

/-- Each successful `_insert` run lengthens its row by one token per
non-abandoned iteration, so by at most the iteration count. -/
theorem insertRow_length {α : Type} [DecidableEq α] (cfg : InsertionConfig α)
    (U : Nat → Nat → Nat) :
    ∀ (num g : Nat) (xs out : List α) (g2 : Nat),
      insertRow cfg U num g xs = some (out, g2) →
      ∃ a, a ≤ num ∧ out.length = xs.length + a := by
  intro num
  induction num with
  | zero =>
      intro g xs out g2 h
      simp only [insertRow, Option.some.injEq, Prod.mk.injEq] at h
      exact ⟨0, Nat.le_refl 0, by rw [← h.1, Nat.add_zero]⟩
  | succ m ih =>
      intro g xs out g2 h
      simp only [insertRow] at h
      by_cases hl : xs.length < 2
      · rw [if_pos hl] at h
        exact absurd h (by simp)
      · rw [if_neg hl] at h
        cases hget : xs.get? (U g 0 % xs.length) with
        | none => simp only [hget] at h; exact Option.noConfusion h
        | some w =>
            simp only [hget] at h
            by_cases hskip : checkSkip cfg w
            · rw [if_pos hskip] at h
              obtain ⟨a, ha, hlen⟩ := ih (g + 1) xs out g2 h
              exact ⟨a, Nat.le_succ_of_le ha, hlen⟩
            · rw [if_neg hskip] at h
              cases hfn : cfg.insertion_fn with
              | some f =>
                  simp only [hfn] at h
                  obtain ⟨a, ha, hlen⟩ := ih _ _ _ _ h
                  refine ⟨a + 1, by omega, ?_⟩
                  rw [hlen, splice_length]
                  omega
              | none =>
                  simp only [hfn] at h
                  cases hil : cfg.insertion_list with
                  | some l =>
                      simp only [hil] at h
                      cases hsyn : l.get? (U (g + 1) 0 % l.length) with
                      | none => simp only [hsyn] at h; exact Option.noConfusion h
                      | some syn =>
                          simp only [hsyn] at h
                          obtain ⟨a, ha, hlen⟩ := ih _ _ _ _ h
                          refine ⟨a + 1, by omega, ?_⟩
                          rw [hlen, splice_length]
                          omega
                  | none =>
                      simp only [hil] at h
                      cases hpy : cfg.insertion_py_fn with
                      | some f =>
                          simp only [hpy] at h
                          obtain ⟨a, ha, hlen⟩ := ih _ _ _ _ h
                          refine ⟨a + 1, by omega, ?_⟩
                          rw [hlen, splice_length]
                          omega
                      | none => simp only [hpy] at h; exact Option.noConfusion h

/-- The map over the batch relates every (row, iteration-count) pair to its
output row by the per-row length accounting. -/
theorem insertRowsLoop_length {α : Type} [DecidableEq α] (cfg : InsertionConfig α)
    (U : Nat → Nat → Nat) :
    ∀ (pairs : List (List α × Nat)) (g : Nat) (outs : List (List α)) (g2 : Nat),
      insertRowsLoop cfg U g pairs = some (outs, g2) →
      List.Forall₂ (fun (p : List α × Nat) (out : List α) =>
        ∃ a, a ≤ p.2 ∧ out.length = p.1.length + a) pairs outs := by
  intro pairs
  induction pairs with
  | nil =>
      intro g outs g2 h
      simp only [insertRowsLoop, Option.some.injEq, Prod.mk.injEq] at h
      rw [← h.1]
      exact List.Forall₂.nil
  | cons p rest ih =>
      intro g outs g2 h
      obtain ⟨r, k⟩ := p
      simp only [insertRowsLoop] at h
      cases h1 : insertRow cfg U k g r with
      | none => simp only [h1] at h; exact Option.noConfusion h
      | some rg =>
          obtain ⟨r2, ga⟩ := rg
          simp only [h1] at h
          cases h2 : insertRowsLoop cfg U ga rest with
          | none => simp only [h2] at h; exact Option.noConfusion h
          | some rsg =>
              obtain ⟨rs, gb⟩ := rsg
              simp only [h2] at h
              simp only [Option.some.injEq, Prod.mk.injEq] at h
              rw [← h.1]
              exact List.Forall₂.cons
                (insertRow_length cfg U k g r r2 ga h1) (ih ga rs gb h2)

/-- C4 amended: whenever `RandomInsertion.call` returns a batch (a length-1
row paired with a positive iteration count instead fails on the
out-of-range slice `index[1]`), every output row is its input row plus one
token per non-abandoned iteration, at most `num_to_select`; and an
iteration whose drawn prompt token is skip-protected consumes its generator
draw but inserts no token. -/
theorem c4_length_accounting :
    (∀ {α : Type} [DecidableEq α] (cfg : InsertionConfig α)
        (U Bin : Nat → Nat → Nat) (g : Nat) (rows outs : List (List α)) (g2 : Nat),
        insertionCallRows cfg U Bin g rows = some (outs, g2) →
        List.Forall₂ (fun (p : List α × Nat) (out : List α) =>
          ∃ a, a ≤ p.2 ∧ out.length = p.1.length + a)
          (rows.zip (numToSelect cfg Bin g 0 (rows.map List.length))) outs) ∧
    (∀ {α : Type} [DecidableEq α] (cfg : InsertionConfig α)
        (U : Nat → Nat → Nat) (num g : Nat) (xs : List α) (w : α),
        ¬ xs.length < 2 → xs.get? (U g 0 % xs.length) = some w →
        checkSkip cfg w = true →
        insertRow cfg U (num + 1) g xs = insertRow cfg U num (g + 1) xs) := by
  constructor
  · intro α _ cfg U Bin g rows outs g2 h
    simp only [insertionCallRows] at h
    exact insertRowsLoop_length cfg U _ _ _ _ h
  · intro α _ cfg U num g xs w hl hget hskip
    conv =>
      lhs
      rw [insertRow]
    simp only [if_neg hl, hget, if_pos hskip]

/-- C4 counterexample: on the one-token sequence `[5]` with a binomial draw
of 1 the call produces no output at all (the first iteration slices
component 1 out of a length-1 draw vector), so no length accounting holds
for it. -/
theorem c4_counterexample_len1_row_fails :
    numToSelect cfgInsList (fun _ _ => 1) 0 0 [1] = [1] ∧
      insertionCall cfgInsList UZ (fun _ _ => 1) 0 (.r2 [[5]]) = none :=
  ⟨rfl, rfl⟩

/-- C4 witness: the amended theorem evaluated on the batch `[[1, 2]]` with
one insertion drawn, and the abandon equation on a skip-protected prompt. -/
theorem c4_witness :
    List.Forall₂ (fun (p : List Nat × Nat) (out : List Nat) =>
        ∃ a, a ≤ p.2 ∧ out.length = p.1.length + a) [([1, 2], 1)] [[1, 9, 2]] ∧
      insertRow cfgInsSkip UZ 1 0 [1, 2] = insertRow cfgInsSkip UZ 0 1 [1, 2] :=
  ⟨c4_length_accounting.1 cfgInsList UZ (fun _ _ => 1) 0 [[1, 2]] [[1, 9, 2]] 3 rfl,
    c4_length_accounting.2 cfgInsSkip UZ 0 0 [1, 2] 1 (by decide) rfl rfl⟩

/-- When the uniform oracle ignores the seed argument, the output rows of
one `_insert` run do not depend on the starting generator counter (only the
final counter does). -/
theorem insertRow_counter_irrel {α : Type} [DecidableEq α]
    (cfg : InsertionConfig α) (u : Nat → Nat) :
    ∀ (num g g2 : Nat) (xs : List α),
      (insertRow cfg (fun _ j => u j) num g xs).map Prod.fst =
        (insertRow cfg (fun _ j => u j) num g2 xs).map Prod.fst := by
  intro num
  induction num with
  | zero => intro g g2 xs; rfl
  | succ m ih =>
      intro g g2 xs
      simp only [insertRow]
      by_cases hl : xs.length < 2
      · rw [if_pos hl, if_pos hl]
      · rw [if_neg hl, if_neg hl]
        cases hget : xs.get? (u 0 % xs.length) with
        | none => rfl
        | some w =>
            by_cases hskip : checkSkip cfg w
            · simp only [if_pos hskip]
              exact ih (g + 1) (g2 + 1) xs
            · simp only [if_neg hskip]
              cases hfn : cfg.insertion_fn with
              | some f => dsimp only; exact ih _ _ _
              | none =>
                  dsimp only
                  cases hil : cfg.insertion_list with
                  | some l =>
                      dsimp only
                      cases hsyn : l.get? (u 0 % l.length) with
                      | none => dsimp only
                      | some syn => dsimp only; exact ih _ _ _
                  | none =>
                      dsimp only
                      cases hpy : cfg.insertion_py_fn with
                      | some f => dsimp only; exact ih _ _ _
                      | none => dsimp only

/-- With a seed-oblivious binomial oracle, `num_to_select` ignores both the
seed and the component offset. -/
theorem numToSelect_const {α : Type} (cfg : InsertionConfig α) (c : Nat) :
    ∀ (lens : List Nat) (s i : Nat),
      numToSelect cfg (fun _ _ => c) s i lens =
        lens.map (fun L => clampNum cfg (c % (L + 1))) := by
  intro lens
  induction lens with
  | nil => intro s i; rfl
  | cons L Ls ih => intro s i; simp only [numToSelect, List.map_cons, ih]

/-- Counter irrelevance lifted to the whole per-batch loop. -/
theorem insertRowsLoop_counter_irrel {α : Type} [DecidableEq α]
    (cfg : InsertionConfig α) (u : Nat → Nat) :
    ∀ (pairs : List (List α × Nat)) (g g2 : Nat),
      (insertRowsLoop cfg (fun _ j => u j) g pairs).map Prod.fst =
        (insertRowsLoop cfg (fun _ j => u j) g2 pairs).map Prod.fst := by
  intro pairs
  induction pairs with
  | nil => intro g g2; rfl
  | cons p rest ih =>
      intro g g2
      obtain ⟨r, k⟩ := p
      have hrow := insertRow_counter_irrel cfg u k g g2 r
      simp only [insertRowsLoop]
      cases h1 : insertRow cfg (fun _ j => u j) k g r with
      | none =>
          rw [h1] at hrow
          cases h2 : insertRow cfg (fun _ j => u j) k g2 r with
          | none => rfl
          | some p2 => rw [h2] at hrow; exact absurd hrow (by simp)
      | some p1 =>
          obtain ⟨r1, ga⟩ := p1
          rw [h1] at hrow
          cases h2 : insertRow cfg (fun _ j => u j) k g2 r with
          | none => rw [h2] at hrow; exact absurd hrow (by simp)
          | some p2 =>
              obtain ⟨r2, gb⟩ := p2
              rw [h2] at hrow
              simp only [Option.map_some', Option.some.injEq] at hrow
              dsimp only
              have hrest := ih ga gb
              cases h3 : insertRowsLoop cfg (fun _ j => u j) ga rest with
              | none =>
                  rw [h3] at hrest
                  cases h4 : insertRowsLoop cfg (fun _ j => u j) gb rest with
                  | none => rfl
                  | some q => rw [h4] at hrest; exact absurd hrest (by simp)
              | some q1 =>
                  obtain ⟨rs1, gc⟩ := q1
                  rw [h3] at hrest
                  cases h4 : insertRowsLoop cfg (fun _ j => u j) gb rest with
                  | none => rw [h4] at hrest; exact absurd hrest (by simp)
                  | some q2 =>
                      obtain ⟨rs2, gd⟩ := q2
                      rw [h4] at hrest
                      simp only [Option.map_some', Option.some.injEq] at hrest
                      simp [hrow, hrest]

/-- C3 amended: the per-example outputs of the batched call and of the
one-call-per-sequence pattern coincide whenever the draw oracles are
insensitive to the generator seed, i.e. whenever the two patterns see the
same per-example draws.  (With the real stateful generator the two patterns
consume different seeds — the batch derives every binomial count from one
seed while individual calls use successive counter states — so
bit-identical outputs are not guaranteed; the counterexample theorem
exhibits diverging draws.) -/
theorem c3_batch_independence_for_seed_oblivious_draws :
    ∀ {α : Type} [DecidableEq α] (cfg : InsertionConfig α) (u : Nat → Nat)
      (c g : Nat) (rows : List (List α)),
      (insertionCallRows cfg (fun _ j => u j) (fun _ _ => c) g rows).map Prod.fst =
        (insertionIndividual cfg (fun _ j => u j) (fun _ _ => c) g rows).map Prod.fst := by
  intro α _ cfg u c g rows
  induction rows generalizing g with
  | nil => rfl
  | cons r rest ih =>
      simp only [insertionCallRows, insertionIndividual, List.map_cons,
        numToSelect, List.zip, List.zipWith_cons_cons, insertRowsLoop,
        Nat.zero_add]
      cases h1 : insertRow cfg (fun _ j => u j)
          (clampNum cfg ((fun _ _ => c) g 0 % (r.length + 1))) (g + 1) r with
      | none => simp only [h1]
      | some p =>
          obtain ⟨r2, ga⟩ := p
          simp only [h1]
          have e1 : List.zipWith Prod.mk rest (numToSelect cfg (fun _ _ => c) g 1
                (List.map List.length rest)) =
              List.zipWith Prod.mk rest (numToSelect cfg (fun _ _ => c) ga 0
                (List.map List.length rest)) := by
            rw [numToSelect_const cfg c, numToSelect_const cfg c]
          have hchain : (insertRowsLoop cfg (fun _ j => u j) ga
                (List.zipWith Prod.mk rest (numToSelect cfg (fun _ _ => c) g 1
                  (List.map List.length rest)))).map Prod.fst =
              (insertionIndividual cfg (fun _ j => u j) (fun _ _ => c) ga
                rest).map Prod.fst := by
            calc (insertRowsLoop cfg (fun _ j => u j) ga
                    (List.zipWith Prod.mk rest (numToSelect cfg (fun _ _ => c) g 1
                      (List.map List.length rest)))).map Prod.fst
                = (insertRowsLoop cfg (fun _ j => u j) (ga + 1)
                    (List.zipWith Prod.mk rest (numToSelect cfg (fun _ _ => c) g 1
                      (List.map List.length rest)))).map Prod.fst :=
                  insertRowsLoop_counter_irrel cfg u _ ga (ga + 1)
              _ = (insertionCallRows cfg (fun _ j => u j) (fun _ _ => c) ga
                    rest).map Prod.fst := by
                  simp only [insertionCallRows, List.zip]
                  rw [← e1]
              _ = (insertionIndividual cfg (fun _ j => u j) (fun _ _ => c) ga
                    rest).map Prod.fst := ih ga
          cases h3 : insertRowsLoop cfg (fun _ j => u j) ga
              (List.zipWith Prod.mk rest (numToSelect cfg (fun _ _ => c) g 1
                (List.map List.length rest))) with
          | none =>
              rw [h3] at hchain
              cases h4 : insertionIndividual cfg (fun _ j => u j)
                  (fun _ _ => c) ga rest with
              | none => rfl
              | some q => rw [h4] at hchain; exact absurd hchain (by simp)
          | some q1 =>
              obtain ⟨rs1, gc⟩ := q1
              rw [h3] at hchain
              cases h4 : insertionIndividual cfg (fun _ j => u j)
                  (fun _ _ => c) ga rest with
              | none => rw [h4] at hchain; exact absurd hchain (by simp)
              | some q2 =>
                  obtain ⟨rs2, gd⟩ := q2
                  rw [h4] at hchain
                  simp only [Option.map_some', Option.some.injEq] at hchain
                  simp [hchain]

/-- C3 counterexample: for the insertion transform with insertion list
`[9]`, the all-zero uniform oracle and a binomial oracle whose value
depends on the seed and the component index (as the real Philox draws do),
the batched call inserts into the second sequence while the
one-call-per-sequence pattern leaves it unchanged, so the per-example
outputs of the two call patterns differ. -/
theorem c3_counterexample_batch_differs_from_individual :
    insertionCallRows cfgInsList UZ
        (fun s i => if s = 0 ∧ i = 1 then 1 else 0) 0 [[1, 2], [3, 4]] =
      some ([[1, 2], [3, 9, 4]], 3) ∧
    insertionIndividual cfgInsList UZ
        (fun s i => if s = 0 ∧ i = 1 then 1 else 0) 0 [[1, 2], [3, 4]] =
      some ([[1, 2], [3, 4]], 2) ∧
    ([[1, 2], [3, 9, 4]] : List (List Nat)) ≠ [[1, 2], [3, 4]] :=
  ⟨rfl, rfl, by decide⟩

/-- Full characterization of a successful `RandomSwaps` construction with
the default dtype. -/
theorem randomSwapsInit_ok_iff {α : Type} (swaps : Int) (sl : Option (List α))
    (sfn pfn : Option (α → Bool)) (seed : Option Int) (fresh : Int)
    (cfg : SwapsConfig α) :
    randomSwapsInit swaps sl sfn pfn seed none fresh = .ok cfg ↔
      (0 ≤ swaps ∧ 2 ≤ noneCount3 sl sfn pfn ∧
        cfg = { swaps := swaps,
                seed := (match seed with | none => fresh | some s => s),
                skip_list := sl, skip_fn := sfn, py_skip_fn := pfn,
                dtype := .int32 }) := by
  simp only [randomSwapsInit, checkDType]
  split_ifs with h1 h2
  · constructor
    · intro h; exact h.elim
    · rintro ⟨h0, -, -⟩; omega
  · constructor
    · intro h; exact h.elim
    · rintro ⟨-, h0, -⟩; omega
  · simp only [Except.ok.injEq]
    constructor
    · intro h; exact ⟨by omega, by omega, h.symm⟩
    · rintro ⟨-, -, h⟩; exact h.symm

/-- Full characterization of a successful `RandomInsertion` construction
with the default dtype. -/
theorem randomInsertionInit_ok_iff {α : Type} (rate : ℚ) (maxI : Option Int)
    (il : Option (List α)) (ifn ipfn : Option (α → α)) (sl : Option (List α))
    (sfn spfn : Option (α → Bool)) (seed : Option Int) (fresh : Int)
    (cfg : InsertionConfig α) :
    randomInsertionInit rate maxI il ifn ipfn sl sfn spfn seed none fresh = .ok cfg ↔
      (optNeg maxI = false ∧ ¬(rate > 1 ∨ rate < 0) ∧
        2 ≤ noneCount3 sl sfn spfn ∧ noneCount3 il ifn ipfn = 2 ∧
        cfg = { rate := rate, max_insertions := maxI, insertion_list := il,
                insertion_fn := ifn, insertion_py_fn := ipfn, skip_list := sl,
                skip_fn := sfn, skip_py_fn := spfn,
                seed := (match seed with | none => fresh | some s => s),
                dtype := .int32 }) := by
  simp only [randomInsertionInit, checkDType]
  split_ifs with h1 h2 h3 h4
  · constructor
    · intro h; exact h.elim
    · rintro ⟨h0, -, -, -, -⟩; rw [h1] at h0; exact Bool.noConfusion h0
  · constructor
    · intro h; exact h.elim
    · rintro ⟨-, h0, -, -, -⟩; exact h0 h2
  · constructor
    · intro h; exact h.elim
    · rintro ⟨-, -, h0, -, -⟩; omega
  · constructor
    · intro h; exact h.elim
    · rintro ⟨-, -, -, h0, -⟩; exact h4 h0
  · simp only [Except.ok.injEq]
    constructor
    · intro h
      refine ⟨?_, h2, by omega, by omega, h.symm⟩
      revert h1; cases optNeg maxI <;> simp
    · rintro ⟨-, -, -, -, h⟩; exact h.symm

/-- C6: with the default dtype, construction succeeds exactly when every
eagerly checked invariant holds — the insertion transform needs a rate in
the closed interval 0 to 1, a non-negative cap when one is given, at most
one skip mechanism and exactly one insertion mechanism; the swap transform
needs a non-negative swap count and at most one skip mechanism. -/
theorem c6_construction_validates_eagerly :
    (∀ {α : Type} (rate : ℚ) (maxI : Option Int) (il : Option (List α))
        (ifn ipfn : Option (α → α)) (sl : Option (List α))
        (sfn spfn : Option (α → Bool)) (seed : Option Int) (fresh : Int),
        (∃ cfg, randomInsertionInit rate maxI il ifn ipfn sl sfn spfn seed
            none fresh = .ok cfg) ↔
          (0 ≤ rate ∧ rate ≤ 1 ∧ (∀ m ∈ maxI, 0 ≤ m) ∧
            2 ≤ noneCount3 sl sfn spfn ∧ noneCount3 il ifn ipfn = 2)) ∧
    (∀ {α : Type} (swaps : Int) (sl : Option (List α))
        (sfn pfn : Option (α → Bool)) (seed : Option Int) (fresh : Int),
        (∃ cfg, randomSwapsInit swaps sl sfn pfn seed none fresh = .ok cfg) ↔
          (0 ≤ swaps ∧ 2 ≤ noneCount3 sl sfn pfn)) := by
  constructor
  · intro α rate maxI il ifn ipfn sl sfn spfn seed fresh
    constructor
    · rintro ⟨cfg, h⟩
      obtain ⟨h1, h2, h3, h4, -⟩ :=
        (randomInsertionInit_ok_iff rate maxI il ifn ipfn sl sfn spfn
          seed fresh cfg).mp h
      push_neg at h2
      refine ⟨h2.2, h2.1, ?_, h3, h4⟩
      intro m hm
      cases maxI with
      | none => exact absurd hm (by simp)
      | some m2 =>
          simp only [Option.mem_def, Option.some.injEq] at hm
          subst hm
          simp only [optNeg, decide_eq_false_iff_not, Int.not_lt] at h1
          exact h1
    · rintro ⟨hr0, hr1, hm, hs, hi⟩
      refine ⟨_, (randomInsertionInit_ok_iff rate maxI il ifn ipfn sl sfn spfn
        seed fresh _).mpr ⟨?_, ?_, hs, hi, rfl⟩⟩
      · cases maxI with
        | none => rfl
        | some m =>
            simp only [optNeg, decide_eq_false_iff_not, Int.not_lt]
            exact hm m (by simp)
      · push_neg
        exact ⟨hr1, hr0⟩
  · intro α swaps sl sfn pfn seed fresh
    constructor
    · rintro ⟨cfg, h⟩
      obtain ⟨h1, h2, -⟩ :=
        (randomSwapsInit_ok_iff swaps sl sfn pfn seed fresh cfg).mp h
      exact ⟨h1, h2⟩
    · rintro ⟨h1, h2⟩
      exact ⟨_, (randomSwapsInit_ok_iff swaps sl sfn pfn seed fresh _).mpr
        ⟨h1, h2, rfl⟩⟩

/-- C6 witness: a valid insertion construction, a valid swap construction,
and two invalid ones (rate 3/2, swap count -1), decided through the
characterization. -/
theorem c6_witness :
    (∃ cfg, randomInsertionInit (α := Nat) (1/2 : ℚ) (some 2) (some [9]) none
        none none none none (some 42) none 7 = .ok cfg) ∧
    (∃ cfg, randomSwapsInit (α := Nat) 3 none none none (some 1) none 7 = .ok cfg) ∧
    ¬(∃ cfg, randomInsertionInit (α := Nat) (3/2 : ℚ) none (some [9]) none
        none none none none (some 42) none 7 = .ok cfg) ∧
    ¬(∃ cfg, randomSwapsInit (α := Nat) (-1) none none none (some 1) none 7 = .ok cfg) := by
  refine ⟨?_, ?_, ?_, ?_⟩
  · exact (c6_construction_validates_eagerly.1 _ _ _ _ _ _ _ _ _ _).mpr
      ⟨by norm_num, by norm_num, by simp, by simp [noneCount3], by simp [noneCount3]⟩
  · exact (c6_construction_validates_eagerly.2 _ _ _ _ _ _).mpr
      ⟨by norm_num, by simp [noneCount3]⟩
  · intro h
    have := (c6_construction_validates_eagerly.1 _ _ _ _ _ _ _ _ _ _).mp h
    have hr := this.2.1
    norm_num at hr
  · intro h
    have := (c6_construction_validates_eagerly.2 _ _ _ _ _ _).mp h
    have hs := this.1
    norm_num at hs

/-- C5: supplying two or more skip mechanisms makes either constructor
raise; supplying none succeeds (with the other parameters valid) and
produces an instance in which no token is ever skip-protected during a
call — `_check_skip` answers false on every token and the swap transform
computes no skip mask at all. -/
theorem c5_at_most_one_skip_mechanism :
    (∀ {α : Type} (rate : ℚ) (maxI : Option Int) (il : Option (List α))
        (ifn ipfn : Option (α → α)) (sl : Option (List α))
        (sfn spfn : Option (α → Bool)) (seed : Option Int) (fresh : Int),
        noneCount3 sl sfn spfn < 2 →
        ¬∃ cfg, randomInsertionInit rate maxI il ifn ipfn sl sfn spfn seed
          none fresh = .ok cfg) ∧
    (∀ {α : Type} (swaps : Int) (sl : Option (List α))
        (sfn pfn : Option (α → Bool)) (seed : Option Int) (fresh : Int),
        noneCount3 sl sfn pfn < 2 →
        ¬∃ cfg, randomSwapsInit swaps sl sfn pfn seed none fresh = .ok cfg) ∧
    (∀ {α : Type} [DecidableEq α] (rate : ℚ) (maxI : Option Int)
        (il : Option (List α)) (ifn ipfn : Option (α → α)) (seed : Option Int)
        (fresh : Int) (cfg : InsertionConfig α),
        randomInsertionInit rate maxI il ifn ipfn none none none seed
          none fresh = .ok cfg →
        ∀ tok : α, checkSkip cfg tok = false) ∧
    (∀ {α : Type} [DecidableEq α] (swaps : Int) (seed : Option Int)
        (fresh : Int) (cfg : SwapsConfig α),
        randomSwapsInit swaps none none none seed none fresh = .ok cfg →
        ∀ flat : List α, swapsSkipMasks cfg flat = none) := by
  refine ⟨?_, ?_, ?_, ?_⟩
  · intro α rate maxI il ifn ipfn sl sfn spfn seed fresh hlt
    rintro ⟨cfg, h⟩
    obtain ⟨-, -, h3, -, -⟩ :=
      (randomInsertionInit_ok_iff rate maxI il ifn ipfn sl sfn spfn
        seed fresh cfg).mp h
    omega
  · intro α swaps sl sfn pfn seed fresh hlt
    rintro ⟨cfg, h⟩
    obtain ⟨-, h2, -⟩ :=
      (randomSwapsInit_ok_iff swaps sl sfn pfn seed fresh cfg).mp h
    omega
  · intro α _ rate maxI il ifn ipfn seed fresh cfg h tok
    obtain ⟨-, -, -, -, hcfg⟩ :=
      (randomInsertionInit_ok_iff rate maxI il ifn ipfn none none none
        seed fresh cfg).mp h
    subst hcfg
    rfl
  · intro α _ swaps seed fresh cfg h flat
    obtain ⟨-, -, hcfg⟩ :=
      (randomSwapsInit_ok_iff swaps none none none seed fresh cfg).mp h
    subst hcfg
    rfl

/-- C5 witness: two skip mechanisms at once are rejected for both
transforms, and the skip-free instances built above protect no token. -/
theorem c5_witness :
    (¬∃ cfg, randomInsertionInit (α := Nat) 1 none (some [9]) none none
        (some [1]) (some (fun _ => true)) none (some 42) none 7 = .ok cfg) ∧
    (¬∃ cfg, randomSwapsInit (α := Nat) 1 (some [1]) (some (fun _ => true))
        none (some 42) none 7 = .ok cfg) ∧
    (∀ tok : Nat, checkSkip cfgInsList tok = false) ∧
    (∀ flat : List Nat, swapsSkipMasks cfgSwapPlain1 flat = none) := by
  refine ⟨?_, ?_, ?_, ?_⟩
  · exact c5_at_most_one_skip_mechanism.1 1 none (some [9]) none none
      (some [1]) (some (fun _ => true)) none (some 42) 7 (by simp [noneCount3])
  · exact c5_at_most_one_skip_mechanism.2.1 1 (some [1])
      (some (fun _ => true)) none (some 42) 7 (by simp [noneCount3])
  · exact c5_at_most_one_skip_mechanism.2.2.1 1 none (some [9]) none none
      (some 42) 7 cfgInsList rfl
  · exact c5_at_most_one_skip_mechanism.2.2.2 1 (some 42) 7
      cfgSwapPlain1 rfl

/-- C8 counterexample: `RandomSwaps.get_config` exports only the swap count
and the seed, so reconstructing the instance that skip-protects token 1
yields an instance with no skip mechanism at all — not an equivalent
instance. -/
theorem c8_counterexample_swaps_config_drops_skip :
    swapsFromConfig (α := Nat) (swapsGetConfig cfgSwapSkip) 7 =
      Except.ok { swaps := 1, seed := 42, skip_list := none, skip_fn := none,
                  py_skip_fn := none, dtype := .int32 } ∧
      cfgSwapSkip.skip_list = some ([1] : List Nat) :=
  ⟨rfl, rfl⟩

/-- C8 amended: `RandomInsertion.get_config` exports every constructor
parameter and feeding it back reconstructs the very same configuration;
`RandomSwaps.get_config` exports only the swap count and the seed, which
round-trip exactly, while the skip mechanism is lost and the rebuilt
instance carries none. -/
theorem c8_config_roundtrip :
    (∀ {α : Type} (rate : ℚ) (maxI : Option Int) (il : Option (List α))
        (ifn ipfn : Option (α → α)) (sl : Option (List α))
        (sfn spfn : Option (α → Bool)) (seed : Option Int) (fresh fresh2 : Int)
        (cfg : InsertionConfig α),
        randomInsertionInit rate maxI il ifn ipfn sl sfn spfn seed none fresh =
          .ok cfg →
        insertionFromConfig (insertionGetConfig cfg) fresh2 = .ok cfg) ∧
    (∀ {α : Type} (swaps : Int) (sl : Option (List α))
        (sfn pfn : Option (α → Bool)) (seed : Option Int) (fresh fresh2 : Int)
        (cfg : SwapsConfig α),
        randomSwapsInit swaps sl sfn pfn seed none fresh = .ok cfg →
        swapsFromConfig (α := α) (swapsGetConfig cfg) fresh2 =
          .ok { swaps := cfg.swaps, seed := cfg.seed, skip_list := none,
                skip_fn := none, py_skip_fn := none, dtype := .int32 }) := by
  constructor
  · intro α rate maxI il ifn ipfn sl sfn spfn seed fresh fresh2 cfg h
    obtain ⟨h1, h2, h3, h4, hcfg⟩ :=
      (randomInsertionInit_ok_iff rate maxI il ifn ipfn sl sfn spfn
        seed fresh cfg).mp h
    subst hcfg
    exact (randomInsertionInit_ok_iff rate maxI il ifn ipfn sl sfn spfn
      (some _) fresh2 _).mpr ⟨h1, h2, h3, h4, rfl⟩
  · intro α swaps sl sfn pfn seed fresh fresh2 cfg h
    obtain ⟨h1, -, hcfg⟩ :=
      (randomSwapsInit_ok_iff swaps sl sfn pfn seed fresh cfg).mp h
    subst hcfg
    exact (randomSwapsInit_ok_iff swaps none none none (some _) fresh2 _).mpr
      ⟨h1, by simp [noneCount3], rfl⟩

/-- C8 witness: the round-trip theorem applied to the concrete instances
built by the constructors. -/
theorem c8_witness :
    insertionFromConfig (insertionGetConfig cfgInsList) 11 = .ok cfgInsList ∧
      swapsFromConfig (α := Nat) (swapsGetConfig cfgSwapPlain1) 11 =
        Except.ok { swaps := cfgSwapPlain1.swaps, seed := cfgSwapPlain1.seed,
                    skip_list := none, skip_fn := none, py_skip_fn := none,
                    dtype := .int32 } :=
  ⟨c8_config_roundtrip.1 1 none (some [9]) none none none none none
      (some 42) 7 11 cfgInsList rfl,
    c8_config_roundtrip.2 1 none none none (some 42) 7 11 cfgSwapPlain1 rfl⟩

/-- C9: two-run determinism.  Every draw of a freshly constructed instance
derives from the stored seed (the insertion generator counter starts at 0),
so two invocations on instances with identical configuration — in
particular an identical seed — and identical inputs produce identical
outputs under the same runtime draw map. -/
theorem c9_determinism :
    ∀ {α : Type} [DecidableEq α] (mkR : Int → Nat → Nat → Nat × Nat)
      (mkU mkB : Int → Nat → Nat → Nat) (c1 c2 : SwapsConfig α)
      (d1 d2 : InsertionConfig α) (x1 x2 y1 y2 : Ragged α),
      c1 = c2 → x1 = x2 → d1 = d2 → y1 = y2 →
      swapsCallSeeded mkR c1 x1 = swapsCallSeeded mkR c2 x2 ∧
        insertionCallSeeded mkU mkB d1 y1 = insertionCallSeeded mkU mkB d2 y2 := by
  intro α _ mkR mkU mkB c1 c2 d1 d2 x1 x2 y1 y2 h1 h2 h3 h4
  subst h1; subst h2; subst h3; subst h4
  exact ⟨rfl, rfl⟩

/-- C9 witness: the determinism theorem applied to two runs of each
transform on the concrete instances and the batch containing `[1, 2]`. -/
theorem c9_witness :
    swapsCallSeeded (fun _ _ _ => ((0, 0) : Nat × Nat)) cfgSwapPlain1
        (.r2 [[1, 2]]) =
      swapsCallSeeded (fun _ _ _ => ((0, 0) : Nat × Nat)) cfgSwapPlain1
        (.r2 [[1, 2]]) ∧
      insertionCallSeeded (fun _ _ _ => (0 : Nat)) (fun _ _ _ => (0 : Nat))
          cfgInsList (.r2 [[1, 2]]) =
        insertionCallSeeded (fun _ _ _ => (0 : Nat)) (fun _ _ _ => (0 : Nat))
          cfgInsList (.r2 [[1, 2]]) :=
  c9_determinism (fun _ _ _ => ((0, 0) : Nat × Nat)) (fun _ _ _ => (0 : Nat))
    (fun _ _ _ => (0 : Nat)) cfgSwapPlain1 cfgSwapPlain1 cfgInsList cfgInsList
    (.r2 [[1, 2]]) (.r2 [[1, 2]]) (.r2 [[1, 2]]) (.r2 [[1, 2]]) rfl rfl rfl rfl

/-- C10: a dtype that is neither an integer type nor string is rejected by
either constructor before any other validation — the dtype error is
returned for arbitrary values of every other argument, valid or not — and
with the dtype omitted (None) a successful construction stores int32. -/
theorem c10_dtype_checked_first :
    (∀ {α : Type} (d : DType), d.is_integer = false → d ≠ .string →
        (∀ (swaps : Int) (sl : Option (List α)) (sfn pfn : Option (α → Bool))
            (seed : Option Int) (fresh : Int),
          randomSwapsInit swaps sl sfn pfn seed (some d) fresh =
            .error "Output dtype must be an integer type or a string.") ∧
        (∀ (rate : ℚ) (maxI : Option Int) (il : Option (List α))
            (ifn ipfn : Option (α → α)) (sl : Option (List α))
            (sfn spfn : Option (α → Bool)) (seed : Option Int) (fresh : Int),
          randomInsertionInit rate maxI il ifn ipfn sl sfn spfn seed
            (some d) fresh =
            .error "Output dtype must be an integer type or a string.")) ∧
    (∀ {α : Type} (swaps : Int) (sl : Option (List α))
        (sfn pfn : Option (α → Bool)) (seed : Option Int) (fresh : Int)
        (cfg : SwapsConfig α),
        randomSwapsInit swaps sl sfn pfn seed none fresh = .ok cfg →
        cfg.dtype = .int32) ∧
    (∀ {α : Type} (rate : ℚ) (maxI : Option Int) (il : Option (List α))
        (ifn ipfn : Option (α → α)) (sl : Option (List α))
        (sfn spfn : Option (α → Bool)) (seed : Option Int) (fresh : Int)
        (cfg : InsertionConfig α),
        randomInsertionInit rate maxI il ifn ipfn sl sfn spfn seed none fresh =
          .ok cfg →
        cfg.dtype = .int32) := by
  refine ⟨?_, ?_, ?_⟩
  · intro α d hi hs
    constructor
    · intro swaps sl sfn pfn seed fresh
      simp [randomSwapsInit, checkDType, hi, hs]
    · intro rate maxI il ifn ipfn sl sfn spfn seed fresh
      simp [randomInsertionInit, checkDType, hi, hs]
  · intro α swaps sl sfn pfn seed fresh cfg h
    obtain ⟨-, -, hcfg⟩ :=
      (randomSwapsInit_ok_iff swaps sl sfn pfn seed fresh cfg).mp h
    rw [hcfg]
  · intro α rate maxI il ifn ipfn sl sfn spfn seed fresh cfg h
    obtain ⟨-, -, -, -, hcfg⟩ :=
      (randomInsertionInit_ok_iff rate maxI il ifn ipfn sl sfn spfn
        seed fresh cfg).mp h
    rw [hcfg]

/-- C10 witness: a float32 dtype is rejected even when the swap count is
also invalid, and the omitted dtype defaults to int32 on the concrete
instances. -/
theorem c10_witness :
    randomSwapsInit (α := Nat) (-1) none none none (some 42) (some .float32) 7 =
        .error "Output dtype must be an integer type or a string." ∧
      randomInsertionInit (α := Nat) 2 (some (-3)) none none none none none
          none (some 42) (some .float32) 7 =
        .error "Output dtype must be an integer type or a string." ∧
      cfgSwapPlain1.dtype = .int32 :=
  ⟨(c10_dtype_checked_first.1 .float32 rfl (by decide)).1 (-1) none none none
      (some 42) 7,
    (c10_dtype_checked_first.1 .float32 rfl (by decide)).2 2 (some (-3)) none
      none none none none none (some 42) 7,
    c10_dtype_checked_first.2.1 1 none none none (some 42) 7 cfgSwapPlain1 rfl⟩
